import Mathlib

/-!
# Verification of the multidrop SAP codec, accumulator, liveness filter and RTP gap check

This file is a shallow embedding of the Go sources of `Natolumin/multidrop`:

* `sap/packet.go`  — `ParseHeader`, `parseAuthData`, `Packet.WriteBinary`,
  `AuthData.writeBinary`, `Header.recomputeLen`, `AuthData.reflowPadding`;
* `sap/filters.go` — `FilterNotExpired`;
* `sap/network.go` — `origHash` and the map-update logic of `countStreams`;
* `cmd/rtpdump`    — the per-packet sequence-gap check of `parseRTP`.

Byte buffers are `List Nat` (each entry a byte value); Go's `uint8`/`uint16`
arithmetic is rendered with explicit `% 256` / `% 65536` where the Go types
wrap.  Go errors become constructors of explicit error types.  Wall-clock
times and durations (`time.Time`, `time.Duration`) are nanosecond counts
modelled as `Int`.
-/

/-- `sap.AddrTypeV4` (packet.go): value of the `AddressType` flag for IPv4. -/
def AddrTypeV4 : Bool := false

/-- `sap.AddrTypeV6` (packet.go): value of the `AddressType` flag for IPv6. -/
def AddrTypeV6 : Bool := true

/-- The byte string `"application/sdp"` (`sap.SDPPayloadType`). -/
def SDPPayloadType : List Nat :=
  [97, 112, 112, 108, 105, 99, 97, 116, 105, 111, 110, 47, 115, 100, 112]

/-- The byte string `"v=0"`, the SDP magic checked by the parser. -/
def vEq0 : List Nat := [118, 61, 48]

/-- The 12-byte prefix marking an IPv4-mapped IPv6 address (`net` package
`v4InV6Prefix`). -/
def v4InV6Prefix : List Nat := [0, 0, 0, 0, 0, 0, 0, 0, 0, 0, 255, 255]

/-- `sap.AuthData` (packet.go): the authentication sub-header. -/
structure AuthData where
  version : Nat
  padding : Bool
  authMethod : Nat
  paddingLen : Nat
  data : List Nat
deriving DecidableEq, Repr

/-- `sap.Header` (packet.go).  The unexported Go field `len` is called
`hlen` here.  `PayloadType` (a Go string) is kept as its byte list. -/
structure SapHeader where
  version : Nat
  addressType : Bool
  reserved : Bool
  typ : Bool
  compressed : Bool
  encrypted : Bool
  authLen : Nat
  idHash : Nat
  authData : Option AuthData
  origSrc : List Nat
  payloadType : List Nat
  hlen : Nat
deriving DecidableEq, Repr

/-- `sap.Packet` (packet.go): header plus raw payload. -/
structure SapPacket where
  header : SapHeader
  payload : List Nat
deriving DecidableEq, Repr

/-- The distinct error strings produced by `ParseHeader`/`parseAuthData`
(packet.go), as constructors. -/
inductive DecodeErr where
  /-- `"invalid header length"` — a too-short buffer. -/
  | invalidLength
  /-- `"invalid SAP version"` -/
  | invalidVersion
  /-- `"malformed payload type"` -/
  | malformedPayloadType
  /-- `parseAuthData`: `"version %d is not supported"` -/
  | authUnsupportedVersion
  /-- `parseAuthData`: `"invalid padding length"` -/
  | authInvalidPadding
deriving DecidableEq, Repr

/-- `sap.parseAuthData` (packet.go).  The caller always passes a block of
`4*AuthLen ≥ 4` bytes, so the Go indexing `b[0]` and `b[len(b)-1]` is
rendered with `getD`. -/
def parseAuthData (b : List Nat) : Except DecodeErr AuthData :=
  let b0 := b.getD 0 0
  let dversion := (Nat.land b0 0xe0) >>> 5
  let dpadding : Bool := (Nat.land b0 0x10) != 0
  let dmethod := Nat.land b0 0x0f
  if dversion ≠ 1 then .error .authUnsupportedVersion
  else
    let pl := if dpadding then b.getD (b.length - 1) 0 else 0
    if dpadding ∧ pl > b.length - 1 then .error .authInvalidPadding
    else
      .ok { version := dversion, padding := dpadding, authMethod := dmethod,
            paddingLen := pl, data := (b.take (b.length - pl)).drop 1 }

/-- `sap.ParseHeader` (packet.go).  Field-for-field translation: byte 0 is
split as version `(b[0]&0xe0)>>5`, address-type bit 4, reserved bit 3, type
bit 2, compressed bit 1, encrypted bit 0; `IDHash = b[3] | b[2]<<8`; then the
4/16-byte address block, the optional auth block, and the payload-type
field with the implicit-`"v=0"` special case. -/
def ParseHeader (b : List Nat) : Except DecodeErr SapHeader :=
  if b.length < 4 then .error .invalidLength
  else
    let b0 := b.getD 0 0
    let h1 : SapHeader :=
      { version := (Nat.land b0 0xe0) >>> 5
        addressType := (Nat.land b0 0x10) != 0
        reserved := (Nat.land b0 0x08) != 0
        typ := (Nat.land b0 0x04) != 0
        compressed := (Nat.land b0 0x02) != 0
        encrypted := (Nat.land b0 0x01) != 0
        authLen := b.getD 1 0
        idHash := Nat.lor (b.getD 3 0) ((b.getD 2 0) <<< 8)
        authData := none
        origSrc := []
        payloadType := []
        hlen := 4 }
    if h1.version > 1 then .error .invalidVersion
    else
      let addrLen : Nat := if h1.addressType = AddrTypeV4 then 4 else 16
      if b.length < 4 + addrLen then .error .invalidLength
      else
        let h2 := { h1 with origSrc := (b.drop 4).take addrLen, hlen := 4 + addrLen }
        let authStep : Except DecodeErr SapHeader :=
          if h2.authLen > 0 then
            if b.length < h2.hlen + 4 * h2.authLen then .error .invalidLength
            else
              match parseAuthData ((b.drop h2.hlen).take (4 * h2.authLen)) with
              | .error e => .error e
              | .ok ad => .ok { h2 with hlen := h2.hlen + 4 * h2.authLen, authData := some ad }
          else .ok h2
        match authStep with
        | .error e => .error e
        | .ok h3 =>
          if h3.version ≠ 0 then
            if h3.hlen + 3 ≤ b.length ∧ (b.drop h3.hlen).take 3 = vEq0 then
              .ok { h3 with payloadType := SDPPayloadType }
            else
              match (b.drop h3.hlen).findIdx? (fun x => x == 0) with
              | none => .error .malformedPayloadType
              | some t =>
                .ok { h3 with payloadType := (b.drop h3.hlen).take t,
                              hlen := h3.hlen + t + 1 }
          else .ok { h3 with payloadType := SDPPayloadType }

/-- `net.IP.To4`: the 4-byte form of an IP, when it has one. -/
def ipTo4 (ip : List Nat) : Option (List Nat) :=
  if ip.length = 4 then some ip
  else if ip.length = 16 ∧ ip.take 12 = v4InV6Prefix then some (ip.drop 12)
  else none

/-- `net.IP.To16`: the 16-byte form of an IP (`[]` plays `nil`). -/
def ipTo16 (ip : List Nat) : List Nat :=
  if ip.length = 4 then v4InV6Prefix ++ ip
  else if ip.length = 16 then ip
  else []

/-- `sap.booluint8` (packet.go). -/
def booluint8 (b : Bool) : Nat := if b then 1 else 0

/-- `AuthData.reflowPadding` (packet.go).  All arithmetic on `authlen` is Go
`uint8` arithmetic, hence the `% 256`; the new `PaddingLen` is computed in
`int` and is in `1..4`.  Returns the auth length in words together with the
mutated receiver. -/
def reflowPadding (a : AuthData) : Nat × AuthData :=
  let authlen := (a.data.length + 1) % 256
  let authlen := if a.padding then (authlen + a.paddingLen % 256) % 256 else authlen
  if authlen % 4 ≠ 0 then
    let authlen := (authlen + 256 - a.paddingLen % 256) % 256
    (authlen / 4 + 1,
     { a with paddingLen := 4 - (a.data.length + 1) % 4, padding := true })
  else (authlen / 4, a)

/-- `Header.recomputeLen` (packet.go): recomputes `AuthLen` (via
`reflowPadding`), `AddressType` (from `OrigSrc.To4()`), and the total header
length. -/
def recomputeLen (h : SapHeader) : SapHeader :=
  let ra : Nat × Option AuthData :=
    match h.authData with
    | some a => ((reflowPadding a).1, some (reflowPadding a).2)
    | none => (h.authLen, none)
  let addressType : Bool := (ipTo4 h.origSrc).isNone
  let base := 4 + 4 * ra.1 + (if addressType = AddrTypeV4 then 4 else 16)
  let hlen := if h.version ≠ 0 then base + h.payloadType.length + 1 else base
  { h with authLen := ra.1, authData := ra.2, addressType := addressType, hlen := hlen }

/-- `AuthData.writeBinary` (packet.go): byte 0, the data bytes, then — when
the padding flag is set — a zero-filled padding region whose byte at index
`len(Data)+PaddingLen` is overwritten with `PaddingLen` (a `List.set`,
mirroring the unconditional `b[len(a.Data)+int(a.PaddingLen)] = a.PaddingLen`). -/
def authWriteBinary (a : AuthData) : List Nat :=
  let b0 := (a.version <<< 5 + booluint8 a.padding <<< 4 + Nat.land a.authMethod 0xff) % 256
  if a.padding then
    ((b0 :: a.data) ++ List.replicate a.paddingLen 0).set
      (a.data.length + a.paddingLen) (a.paddingLen % 256)
  else b0 :: a.data

/-- `Packet.WriteBinary` (packet.go), as the byte list written (the Go
function writes into a caller buffer and additionally fails when that buffer
is too small; the buffer-size check is not part of the produced bytes).
It first runs `recomputeLen`, then writes the flag byte
(`Version<<5 + AddressType<<4 + Reserved<<3 + Type<<2 + Encrypted<<1 +
Compressed`), `AuthLen`, the big-endian `IDHash`, the 4- or 16-byte address,
the auth block, the NUL-terminated payload type (version 1 only), and the
payload. -/
def writeBinary (p : SapPacket) : List Nat :=
  let h := recomputeLen p.header
  let b0 := (h.version <<< 5 + booluint8 h.addressType <<< 4 + booluint8 h.reserved <<< 3
      + booluint8 h.typ <<< 2 + booluint8 h.encrypted <<< 1 + booluint8 h.compressed) % 256
  let addr := if h.addressType = AddrTypeV4 then (ipTo4 h.origSrc).getD [] else h.origSrc.take 16
  let auth := if h.authLen ≠ 0 then
      (match h.authData with
       | some a => authWriteBinary a
       | none => [])
    else []
  let ptype := if h.version = 1 then h.payloadType ++ [0] else []
  b0 :: h.authLen % 256 :: (h.idHash / 256) % 256 :: h.idHash % 256
    :: (addr ++ auth ++ ptype ++ p.payload)

/-- `time.Hour` in nanoseconds. -/
def timeHour : Int := 3600000000000

/-- `sap.AdvLifetime` (network.go): an announcement (its `sdp.Description`
kept as an abstract string) annotated with timing information. -/
structure AdvLifetime where
  desc : String
  hash : Nat
  last : Int
  interval : Int
  count : Nat
deriving DecidableEq, Repr

/-- `sap.FilterNotExpired` (filters.go):
`lf.Last.Add(lf.Interval*10).After(now) || lf.Last.Add(time.Hour).After(now)`.
`time.Now()` is passed explicitly as `now`. -/
def FilterNotExpired (lf : AdvLifetime) (now : Int) : Bool :=
  decide (lf.last + lf.interval * 10 > now) || decide (lf.last + timeHour > now)

/-- `sap.origHash` (network.go): the deduplication key. -/
structure OrigHash where
  idHash : Nat
  origSrc : List Nat
deriving DecidableEq, Repr

/-- The key built by `countStreams` (network.go):
`hash := origHash{IDHash: p.IDHash}; copy(hash.OrigSrc[:], p.OrigSrc.To16())` —
a zeroed 16-byte array overlaid with `To16` of the origin address. -/
def origHashOf (idHash : Nat) (origSrc : List Nat) : OrigHash :=
  { idHash := idHash, origSrc := (ipTo16 origSrc ++ List.replicate 16 0).take 16 }

/-- One decoded announcement as consumed by `countStreams`, with the
wall-clock instant (`time.Now()`) at which it is ingested. -/
structure Announce where
  idHash : Nat
  origSrc : List Nat
  desc : String
  time : Int
deriving DecidableEq, Repr

/-- One iteration of the `countStreams` loop body (network.go): look the key
up in `channels.lifetimes`; on a hit set `Interval` to the delta since
`Last`, refresh `Last`, bump `Count`; on a miss insert a fresh entry with
`Count = 1`.  The Go map is modelled as a function to `Option`. -/
def countStreamsStep (m : OrigHash → Option AdvLifetime) (p : Announce) :
    OrigHash → Option AdvLifetime :=
  let key := origHashOf p.idHash p.origSrc
  let entry : AdvLifetime :=
    match m key with
    | some c => { c with interval := p.time - c.last, last := p.time, count := c.count + 1 }
    | none => { desc := p.desc, hash := p.idHash, last := p.time, interval := 0, count := 1 }
  fun k => if k = key then some entry else m k

/-- The `countStreams` loop run over a finite trace of announcements,
starting from the empty map. -/
def countStreamsRun (tr : List Announce) : OrigHash → Option AdvLifetime :=
  tr.foldl countStreamsStep (fun _ => none)

/-- The loss reports `parseRTP` (cmd/rtpdump) can log for one packet. -/
inductive RtpReport where
  | noLoss
  | streamReset
  | lostOne (n : Nat)
  | lostRange (a b : Nat)
deriving DecidableEq, Repr

/-- `uint16` increment: `seqnum + 1`. -/
def succ16 (n : Nat) : Nat := (n + 1) % 65536

/-- `uint16` decrement: `seqnum - 1`. -/
def pred16 (n : Nat) : Nat := (n + 65535) % 65536

/-- The per-packet gap check of `parseRTP` (cmd/rtpdump, started state):
compare `seqnum+1` with the observed sequence number in `uint16`
arithmetic; on a mismatch report a reset when `observed == 0 &&
seqnum <= 65500`, a single lost packet when `seqnum+1 == observed-1`, and a
lost range `[seqnum+1, observed-1]` otherwise. -/
def parseRTPStep (seqnum observed : Nat) : RtpReport :=
  if succ16 seqnum ≠ observed then
    if observed = 0 ∧ seqnum ≤ 65500 then .streamReset
    else if succ16 seqnum = pred16 observed then .lostOne (succ16 seqnum)
    else .lostRange (succ16 seqnum) (pred16 observed)
  else .noLoss

/-! ## Helper lemmas -/

/-- Entry count stored for a key, `0` when absent. -/
def countAux (m : OrigHash → Option AdvLifetime) (k : OrigHash) : Nat :=
  match m k with
  | some c => c.count
  | none => 0

lemma countStreams_foldl_count (tr : List Announce) :
    ∀ (m : OrigHash → Option AdvLifetime) (k : OrigHash),
      countAux (tr.foldl countStreamsStep m) k =
        countAux m k + (tr.filter (fun p => origHashOf p.idHash p.origSrc = k)).length := by
  induction tr with
  | nil => intro m k; simp
  | cons p tr ih =>
    intro m k
    rw [List.foldl_cons, ih]
    by_cases hk : origHashOf p.idHash p.origSrc = k
    · subst hk
      simp only [countAux, countStreamsStep, if_pos rfl, List.filter_cons, decide_True]
      cases h : m (origHashOf p.idHash p.origSrc) <;> simp [h] <;> omega
    · have : countAux (countStreamsStep m p) k = countAux m k := by
        simp only [countAux, countStreamsStep]
        rw [if_neg (fun he => hk he.symm)]
      rw [this, List.filter_cons]
      simp [hk]

/-! ## C3 / C10: reflowPadding -/

/-- Input exhibiting the failure of the unconditional padding invariant:
auth data of length 3 with the padding flag already set and
`PaddingLen = 1`. -/
def a3bad : AuthData :=
  { version := 1, padding := true, authMethod := 0, paddingLen := 1, data := [0, 0, 0] }

/-- C3 (counterexample): for `a3bad` (data length `L = 3`, padding set,
`PaddingLen = 1`), `reflowPadding` returns `W = 2`, and `4*W - (L+1) = 4`,
violating `4*W - (L+1) < 4`.  So the invariant does not hold for every
initial `Padding`/`PaddingLen` state. -/
theorem c3_counterexample :
    (reflowPadding a3bad).1 = 2 ∧ ¬(4 * (reflowPadding a3bad).1 - (a3bad.data.length + 1) < 4) := by
  decide

/-- C3 (amended): for auth data of length `L ≤ 251` whose initial padding
state is consistent (`PaddingLen = 0` when the flag is clear; `1 ≤
PaddingLen ≤ 3` with `(L+1+PaddingLen) % 4 = 0` when it is set),
`reflowPadding` returns a word count `W` with `L+1 ≤ 4*W` and
`4*W - (L+1) < 4`, and when `(L+1) % 4 ≠ 0` it forces the padding flag on
with `PaddingLen = 4 - ((L+1) % 4)`. -/
theorem c3_reflow_invariant (a : AuthData)
    (hL : a.data.length ≤ 251)
    (hpad : a.padding = true →
      1 ≤ a.paddingLen ∧ a.paddingLen ≤ 3 ∧ (a.data.length + 1 + a.paddingLen) % 4 = 0)
    (hnopad : a.padding = false → a.paddingLen = 0) :
    a.data.length + 1 ≤ 4 * (reflowPadding a).1 ∧
    4 * (reflowPadding a).1 - (a.data.length + 1) < 4 ∧
    ((a.data.length + 1) % 4 ≠ 0 →
      (reflowPadding a).2.padding = true ∧
      (reflowPadding a).2.paddingLen = 4 - (a.data.length + 1) % 4) := by
  by_cases hp : a.padding = true
  · obtain ⟨h1, h2, h3⟩ := hpad hp
    have e1 : reflowPadding a = ((a.data.length + 1 + a.paddingLen) / 4, a) := by
      simp only [reflowPadding, hp, if_true]
      have hsum : ((a.data.length + 1) % 256 + a.paddingLen % 256) % 256
          = a.data.length + 1 + a.paddingLen := by omega
      rw [hsum, if_neg (by omega)]
    rw [e1]
    exact ⟨by omega, by omega,
      fun hm => ⟨hp, show a.paddingLen = 4 - (a.data.length + 1) % 4 by omega⟩⟩
  · have hb : a.padding = false := by revert hp; cases a.padding <;> simp
    have h0 : a.paddingLen = 0 := hnopad hb
    have hLm : (a.data.length + 1) % 256 = a.data.length + 1 := by omega
    by_cases hm : (a.data.length + 1) % 4 = 0
    · have e1 : reflowPadding a = ((a.data.length + 1) / 4, a) := by
        simp only [reflowPadding, hb, Bool.false_eq_true, if_false]
        rw [hLm, if_neg (by omega)]
      rw [e1]
      exact ⟨by omega, by omega, fun hmm => absurd hm hmm⟩
    · have e1 : reflowPadding a = ((a.data.length + 1) / 4 + 1,
          { a with paddingLen := 4 - (a.data.length + 1) % 4, padding := true }) := by
        simp only [reflowPadding, hb, Bool.false_eq_true, if_false]
        rw [hLm, if_pos (by omega),
          show (a.data.length + 1 + 256 - a.paddingLen % 256) % 256 = a.data.length + 1
            from by omega]
      rw [e1]
      exact ⟨by omega, by omega, fun _ => ⟨rfl, rfl⟩⟩

/-- C3 (witness input): auth data of length 2 with a clean initial state. -/
def a3wit : AuthData :=
  { version := 1, padding := false, authMethod := 0, paddingLen := 0, data := [7, 7] }

/-- Witness for `c3_reflow_invariant` at `a3wit`. -/
theorem c3_reflow_invariant_witness :
    a3wit.data.length + 1 ≤ 4 * (reflowPadding a3wit).1 ∧
    4 * (reflowPadding a3wit).1 - (a3wit.data.length + 1) < 4 ∧
    ((a3wit.data.length + 1) % 4 ≠ 0 →
      (reflowPadding a3wit).2.padding = true ∧
      (reflowPadding a3wit).2.paddingLen = 4 - (a3wit.data.length + 1) % 4) :=
  c3_reflow_invariant a3wit (by decide) (by decide) (by decide)

set_option maxRecDepth 40000 in
/-- C10: `reflowPadding` works in wrapping 8-bit arithmetic and has no error
path: its result (word count and recomputed padding state) is unchanged when
the data grows by 256 bytes; concretely, data of length 255 with no padding
yields word count 0 (the wrapped value of `256`), and data of length 100
with a pre-set `PaddingLen = 200` (so `100 + 1 + 200 = 301 > 255`) yields
word count 26, with `4*26` far below the unwrapped byte count. -/
theorem c10_reflow_wraps_mod256 :
    (∀ a : AuthData,
      (reflowPadding { a with data := a.data ++ List.replicate 256 0 }).1
          = (reflowPadding a).1 ∧
      (reflowPadding { a with data := a.data ++ List.replicate 256 0 }).2.padding
          = (reflowPadding a).2.padding ∧
      (reflowPadding { a with data := a.data ++ List.replicate 256 0 }).2.paddingLen
          = (reflowPadding a).2.paddingLen) ∧
    (reflowPadding { version := 1, padding := false, authMethod := 0, paddingLen := 0,
                     data := List.replicate 255 0 }).1 = 0 ∧
    (reflowPadding { version := 1, padding := true, authMethod := 0, paddingLen := 200,
                     data := List.replicate 100 0 }).1 = 26 ∧
    4 * 26 < 100 + 1 + 200 := by
  refine ⟨fun a => ?_, ?_, ?_, by decide⟩
  · obtain ⟨av, ap, am, apl, ad⟩ := a
    simp only [reflowPadding, List.length_append, List.length_replicate]
    have h1 : (ad.length + 256 + 1) % 256 = (ad.length + 1) % 256 := by omega
    have h2 : (ad.length + 256 + 1) % 4 = (ad.length + 1) % 4 := by omega
    rw [h1, h2]
    refine ⟨?_, ?_, ?_⟩ <;> split <;> split <;> rfl
  · simp only [reflowPadding, List.length_replicate]
    norm_num
  · simp only [reflowPadding, List.length_replicate]
    norm_num

/-! ## C4: RTP sequence wraparound -/

/-- C4: sequence 0 after 65535 reports no loss; sequence 0 after 65533
reports the lost range `[65534, 65535]`; and in general (for 16-bit
`s`, `o`) the no-loss case is exactly `o = (s+1) mod 65536`, while outside
the reset heuristic the single-loss/range-loss split is `o = (s+2) mod
65536` with the range `[(s+1) mod 65536, (o-1) mod 65536]`. -/
theorem c4_rtp_wraparound (s o : Nat) (hs : s < 65536) (ho : o < 65536) :
    parseRTPStep 65535 0 = .noLoss ∧
    parseRTPStep 65533 0 = .lostRange 65534 65535 ∧
    (parseRTPStep s o = .noLoss ↔ o = (s + 1) % 65536) ∧
    (o ≠ (s + 1) % 65536 → ¬(o = 0 ∧ s ≤ 65500) →
      parseRTPStep s o = if o = (s + 2) % 65536 then .lostOne ((s + 1) % 65536)
                         else .lostRange ((s + 1) % 65536) ((o + 65535) % 65536)) := by
  refine ⟨by decide, by decide, ?_, ?_⟩
  · unfold parseRTPStep succ16 pred16
    split_ifs with hne hreset hone <;>
      simp_all <;> omega
  · intro hne hres
    unfold parseRTPStep succ16 pred16
    rw [if_pos (fun he => hne he.symm), if_neg hres]
    have : ((s + 1) % 65536 = (o + 65535) % 65536) ↔ o = (s + 2) % 65536 := by omega
    split_ifs with h1 h2 <;> simp_all

/-- Witness for `c4_rtp_wraparound` at `s = 65533`, `o = 0`. -/
theorem c4_rtp_wraparound_witness :
    parseRTPStep 65533 0 = .lostRange 65534 65535 :=
  (c4_rtp_wraparound 65533 0 (by decide) (by decide)).2.1

/-! ## C5: default liveness filter -/

/-- An entry seen twice whose `10×interval` window has long elapsed. -/
def lf5 : AdvLifetime :=
  { desc := "", hash := 0, last := 0, interval := 1000000000, count := 2 }

/-- C5 (counterexample): at `now` = 100 s, `lf5` (count 2, interval 1 s,
last seen at 0) is classified live by `FilterNotExpired`, although `now`
is far past `last + 10×interval` and `count ≠ 1` — so the claimed
"live exactly when `now ≤ last + 10×interval` or (`count = 1` and within
grace)" is false of `FilterNotExpired` whatever the grace period. -/
theorem c5_counterexample :
    FilterNotExpired lf5 100000000000 = true ∧
    lf5.count ≠ 1 ∧
    ¬((100000000000 : Int) ≤ lf5.last + lf5.interval * 10) := by
  refine ⟨by decide, by decide, by decide⟩

/-- C5 (amended): `FilterNotExpired` classifies an entry live exactly when
`now` is strictly before `last + 10×interval` or strictly before
`last + 1 hour`; the `count` field is not consulted and the one-hour grace
applies to every entry. -/
theorem c5_filter_not_expired_amended (lf : AdvLifetime) (now : Int) :
    FilterNotExpired lf now = true ↔
      (now < lf.last + lf.interval * 10 ∨ now < lf.last + timeHour) := by
  simp [FilterNotExpired, Int.lt_iff_add_one_le]

/-! ## C7: identity stability of countStreams -/

/-- C7: ingesting an announcement updates exactly the entry keyed by
(`IDHash`, 16-byte-normalized origin): count 1 on first sighting,
incremented by exactly 1 on each re-sighting, `Last` set to the ingest
time and `Interval` to the delta since the previous ingest of the same
identity (0 on first sighting); the stored count equals the number of
ingests with that identity; and a 4-byte address and its IPv4-mapped
16-byte form normalize to the same key. -/
theorem c7_identity_stability :
    (∀ (tr : List Announce) (p : Announce),
      countStreamsRun (tr ++ [p]) (origHashOf p.idHash p.origSrc) =
        some (match countStreamsRun tr (origHashOf p.idHash p.origSrc) with
              | some c => { c with interval := p.time - c.last, last := p.time, count := c.count + 1 }
              | none => { desc := p.desc, hash := p.idHash, last := p.time, interval := 0, count := 1 })) ∧
    (∀ (tr : List Announce) (k : OrigHash),
      countAux (countStreamsRun tr) k =
        (tr.filter (fun p => origHashOf p.idHash p.origSrc = k)).length) ∧
    (∀ (idh a b c d : Nat),
      origHashOf idh [a, b, c, d] = origHashOf idh (v4InV6Prefix ++ [a, b, c, d])) := by
  refine ⟨fun tr p => ?_, fun tr k => ?_, fun idh a b c d => ?_⟩
  · rw [countStreamsRun, List.foldl_append, List.foldl_cons, List.foldl_nil]
    simp only [countStreamsStep, countStreamsRun, if_pos rfl]
  · rw [countStreamsRun, countStreams_foldl_count]
    simp [countAux]
  · simp [origHashOf, ipTo16, v4InV6Prefix]

/-! ## Parser inversion machinery -/

/-- Length of the address block selected by bit 4 of byte 0. -/
def addrLenB (b : List Nat) : Nat :=
  if ((Nat.land (b.getD 0 0) 0x10) != 0) = AddrTypeV4 then 4 else 16

/-- Header length up to and including the auth block: the offset at which
`ParseHeader` looks for the payload-type field. -/
def baseHdrLen (b : List Nat) : Nat := 4 + addrLenB b + 4 * b.getD 1 0

lemma getD_take_of_lt {l : List Nat} {i k : Nat} (h : i < k) (d : Nat) :
    (l.take k).getD i d = l.getD i d := by
  simp [List.getD, List.getElem?_take, h]

lemma findIdx?_take_of_le {l : List Nat} {p : Nat → Bool} {t : Nat}
    (hf : l.findIdx? p = some t) {n : Nat} (hn : n ≤ t) :
    (l.take n).findIdx? p = none := by
  rw [List.findIdx?_eq_some_iff_getElem] at hf
  obtain ⟨ht, _, hbefore⟩ := hf
  rw [List.findIdx?_eq_none_iff]
  intro x hx
  rw [List.mem_iff_getElem] at hx
  obtain ⟨j, hj, rfl⟩ := hx
  have hjn : j < n := by
    have := hj
    simp only [List.length_take] at this
    omega
  rw [List.getElem_take]
  exact Bool.not_eq_true _ ▸ hbefore j (by omega)

lemma findIdx?_no_zero_append {pt rest : List Nat} (hpt : ∀ x ∈ pt, x ≠ 0) :
    (pt ++ 0 :: rest).findIdx? (fun x => x == 0) = some pt.length := by
  rw [List.findIdx?_append]
  have h1 : pt.findIdx? (fun x => x == 0) = none := by
    rw [List.findIdx?_eq_none_iff]
    intro x hx
    simpa using hpt x hx
  rw [h1]
  simp [List.findIdx?_cons]

lemma findIdx?_some_lt {l : List Nat} {p : Nat → Bool} {t : Nat}
    (hf : l.findIdx? p = some t) : t < l.length := by
  rw [List.findIdx?_eq_some_iff_getElem] at hf
  exact hf.1

lemma ParseHeader_ok_inv {b : List Nat} {h : SapHeader} (hp : ParseHeader b = .ok h) :
    4 ≤ b.length ∧
    h.version = (Nat.land (b.getD 0 0) 0xe0) >>> 5 ∧
    h.version ≤ 1 ∧
    h.authLen = b.getD 1 0 ∧
    4 + addrLenB b ≤ b.length ∧
    (0 < b.getD 1 0 → baseHdrLen b ≤ b.length ∧
        ∃ ad, parseAuthData ((b.drop (4 + addrLenB b)).take (4 * b.getD 1 0)) = .ok ad) ∧
    h.hlen ≤ b.length ∧
    ((h.version = 0 ∧ h.hlen = baseHdrLen b ∧ h.payloadType = SDPPayloadType) ∨
     (h.version ≠ 0 ∧ baseHdrLen b + 3 ≤ b.length ∧ (b.drop (baseHdrLen b)).take 3 = vEq0 ∧
        h.hlen = baseHdrLen b ∧ h.payloadType = SDPPayloadType) ∨
     (h.version ≠ 0 ∧ ¬(baseHdrLen b + 3 ≤ b.length ∧ (b.drop (baseHdrLen b)).take 3 = vEq0) ∧
        ∃ t, (b.drop (baseHdrLen b)).findIdx? (fun x => x == 0) = some t ∧
          h.payloadType = (b.drop (baseHdrLen b)).take t ∧ h.hlen = baseHdrLen b + t + 1)) := by
  simp only [ParseHeader] at hp
  simp only [addrLenB, baseHdrLen, addrLenB]
  by_cases h4 : b.length < 4
  · rw [if_pos h4] at hp; exact absurd hp (by simp)
  rw [if_neg h4] at hp
  by_cases hv : (Nat.land (b.getD 0 0) 0xe0) >>> 5 > 1
  · rw [if_pos hv] at hp; exact absurd hp (by simp)
  rw [if_neg hv] at hp
  set A := if ((Nat.land (b.getD 0 0) 0x10) != 0) = AddrTypeV4 then 4 else 16 with hA
  by_cases ha : b.length < 4 + A
  · rw [if_pos ha] at hp; exact absurd hp (by simp)
  rw [if_neg ha] at hp
  by_cases hal : b.getD 1 0 > 0
  · rw [if_pos hal] at hp
    by_cases hla : b.length < 4 + A + 4 * b.getD 1 0
    · rw [if_pos hla] at hp; exact absurd hp (by simp)
    rw [if_neg hla] at hp
    rcases had : parseAuthData ((b.drop (4 + A)).take (4 * b.getD 1 0)) with e | ad
    · rw [had] at hp; exact absurd hp (by simp)
    rw [had] at hp
    dsimp only at hp
    by_cases hv0 : (Nat.land (b.getD 0 0) 0xe0) >>> 5 ≠ 0
    · rw [if_pos hv0] at hp
      by_cases hmag : 4 + A + 4 * b.getD 1 0 + 3 ≤ b.length ∧
          (b.drop (4 + A + 4 * b.getD 1 0)).take 3 = vEq0
      · rw [if_pos hmag] at hp
        simp only [Except.ok.injEq] at hp
        subst hp
        dsimp only
        refine ⟨by omega, rfl, by omega, rfl, by omega,
          fun _ => ⟨by omega, ad, rfl⟩, by omega, Or.inr (Or.inl ?_)⟩
        exact ⟨hv0, hmag.1, hmag.2, rfl, rfl⟩
      · rw [if_neg hmag] at hp
        rcases hfind : (b.drop (4 + A + 4 * b.getD 1 0)).findIdx? (fun x => x == 0) with _ | t
        · rw [hfind] at hp; exact absurd hp (by simp)
        rw [hfind] at hp
        simp only [Except.ok.injEq] at hp
        subst hp
        dsimp only
        have htl := findIdx?_some_lt hfind
        simp only [List.length_drop] at htl
        refine ⟨by omega, rfl, by omega, rfl, by omega,
          fun _ => ⟨by omega, ad, rfl⟩, by omega, Or.inr (Or.inr ?_)⟩
        exact ⟨hv0, hmag, t, rfl, rfl, rfl⟩
    · rw [if_neg hv0] at hp
      simp only [Except.ok.injEq] at hp
      subst hp
      dsimp only
      push_neg at hv0
      refine ⟨by omega, rfl, by omega, rfl, by omega,
        fun _ => ⟨by omega, ad, rfl⟩, by omega, Or.inl ⟨hv0, rfl, rfl⟩⟩
  · rw [if_neg hal] at hp
    dsimp only at hp
    have hal0 : b.getD 1 0 = 0 := by omega
    rw [hal0]
    simp only [Nat.mul_zero, Nat.add_zero]
    by_cases hv0 : (Nat.land (b.getD 0 0) 0xe0) >>> 5 ≠ 0
    · rw [if_pos hv0] at hp
      by_cases hmag : 4 + A + 3 ≤ b.length ∧ (b.drop (4 + A)).take 3 = vEq0
      · rw [if_pos hmag] at hp
        simp only [Except.ok.injEq] at hp
        subst hp
        dsimp only
        refine ⟨by omega, rfl, by omega, hal0, by omega,
          fun hc => absurd hc (by omega), by omega, Or.inr (Or.inl ?_)⟩
        exact ⟨hv0, hmag.1, hmag.2, rfl, rfl⟩
      · rw [if_neg hmag] at hp
        rcases hfind : (b.drop (4 + A)).findIdx? (fun x => x == 0) with _ | t
        · rw [hfind] at hp; exact absurd hp (by simp)
        rw [hfind] at hp
        simp only [Except.ok.injEq] at hp
        subst hp
        dsimp only
        have htl := findIdx?_some_lt hfind
        simp only [List.length_drop] at htl
        refine ⟨by omega, rfl, by omega, hal0, by omega,
          fun hc => absurd hc (by omega), by omega, Or.inr (Or.inr ?_)⟩
        exact ⟨hv0, hmag, t, rfl, rfl, rfl⟩
    · rw [if_neg hv0] at hp
      simp only [Except.ok.injEq] at hp
      subst hp
      dsimp only
      push_neg at hv0
      refine ⟨by omega, rfl, by omega, hal0, by omega,
        fun hc => absurd hc (by omega), by omega, Or.inl ⟨hv0, rfl, rfl⟩⟩

/-! ## C6, C8, C9: payload-type behavior -/

/-- C6: whenever a buffer decodes successfully with version 1 and the 3
bytes following the address and auth blocks (offset `baseHdrLen`) are
`"v=0"`, the decoded payload type is `application/sdp` and the header
length is exactly `baseHdrLen` — zero bytes consumed for the type field,
no NUL terminator read. -/
theorem c6_implicit_sdp (b : List Nat) (h : SapHeader) (hp : ParseHeader b = .ok h)
    (hv : h.version = 1) (hlen3 : baseHdrLen b + 3 ≤ b.length)
    (hmag : (b.drop (baseHdrLen b)).take 3 = vEq0) :
    h.payloadType = SDPPayloadType ∧ h.hlen = baseHdrLen b := by
  obtain ⟨-, -, -, -, -, -, -, hcase⟩ := ParseHeader_ok_inv hp
  rcases hcase with ⟨h0, -, -⟩ | ⟨-, -, -, hh, hpt⟩ | ⟨-, hneg, -⟩
  · rw [hv] at h0; exact absurd h0 one_ne_zero
  · exact ⟨hpt, hh⟩
  · exact absurd ⟨hlen3, hmag⟩ hneg

/-- Test packet 3 of packet_test.go: version-1 IPv6, no auth, payload
`"v=0\r\n"`. -/
def vec3 : List Nat :=
  [0x30, 0, 0xf8, 0x30, 0, 0, 0, 0, 0, 0, 0, 0, 0xc0, 0xf1, 0x31, 0x98,
   0x20, 0x7f, 0, 0, 118, 61, 48, 13, 10]

/-- The header `vec3` decodes to: implicit payload type, length 20. -/
def hdr3 : SapHeader :=
  { version := 1, addressType := AddrTypeV6, reserved := false, typ := false,
    compressed := false, encrypted := false, authLen := 0, idHash := 0xf830,
    authData := none,
    origSrc := [0, 0, 0, 0, 0, 0, 0, 0, 0xc0, 0xf1, 0x31, 0x98, 0x20, 0x7f, 0, 0],
    payloadType := SDPPayloadType, hlen := 20 }

/-- Witness for `c6_implicit_sdp`: the version-1 IPv6 packet `vec3` whose
payload begins `"v=0\r\n"` decodes with payload type `application/sdp` and
total header length exactly 20. -/
theorem c6_implicit_sdp_witness :
    ParseHeader vec3 = .ok hdr3 ∧ hdr3.payloadType = SDPPayloadType ∧
    hdr3.hlen = baseHdrLen vec3 ∧ hdr3.hlen = 20 := by
  have h := c6_implicit_sdp vec3 hdr3 rfl (by decide) (by decide) (by decide)
  exact ⟨rfl, h.1, h.2, by decide⟩

/-- C8: whenever a buffer decodes successfully with version 0, the decoded
payload type is `application/sdp` and the header length is exactly
`baseHdrLen` — zero bytes consumed for the type field, regardless of the
buffer contents after the address and auth blocks. -/
theorem c8_version0_gating (b : List Nat) (h : SapHeader) (hp : ParseHeader b = .ok h)
    (hv : h.version = 0) :
    h.payloadType = SDPPayloadType ∧ h.hlen = baseHdrLen b := by
  obtain ⟨-, -, -, -, -, -, -, hcase⟩ := ParseHeader_ok_inv hp
  rcases hcase with ⟨-, hh, hpt⟩ | ⟨hne, -, -⟩ | ⟨hne, -, -⟩
  · exact ⟨hpt, hh⟩
  · exact absurd hv hne
  · exact absurd hv hne

/-- Test packet 4 of packet_test.go: version-0 IPv6 announcement. -/
def vec4 : List Nat :=
  [0x10, 0, 0xf8, 0x30, 0, 0, 0, 0, 0, 0, 0, 0, 0xc0, 0xf1, 0x31, 0x98,
   0x20, 0x7f, 0, 0]

/-- The header `vec4` decodes to: version 0, implicit type, length 20. -/
def hdr4 : SapHeader :=
  { version := 0, addressType := AddrTypeV6, reserved := false, typ := false,
    compressed := false, encrypted := false, authLen := 0, idHash := 0xf830,
    authData := none,
    origSrc := [0, 0, 0, 0, 0, 0, 0, 0, 0xc0, 0xf1, 0x31, 0x98, 0x20, 0x7f, 0, 0],
    payloadType := SDPPayloadType, hlen := 20 }

/-- Witness for `c8_version0_gating` at the version-0 packet `vec4`. -/
theorem c8_version0_gating_witness :
    ParseHeader vec4 = .ok hdr4 ∧ hdr4.payloadType = SDPPayloadType ∧
    hdr4.hlen = baseHdrLen vec4 ∧ hdr4.hlen = 20 := by
  have h := c8_version0_gating vec4 hdr4 rfl (by decide)
  exact ⟨rfl, h.1, h.2, by decide⟩

/-- C9: no decoded header ever carries a payload-type string beginning with
`"v=0"` (other than nothing: the implicit branch substitutes the constant
`application/sdp`, which does not begin with `"v=0"`, and the explicit
branch is unreachable when the bytes at the type offset begin with
`"v=0"`).  Hence an explicit NUL-terminated type field such as
`"v=0something\0"` can never be decoded as a payload type. -/
theorem c9_implicit_shadows_explicit (b : List Nat) (h : SapHeader)
    (hp : ParseHeader b = .ok h) : h.payloadType.take 3 ≠ vEq0 := by
  obtain ⟨-, -, -, -, -, -, -, hcase⟩ := ParseHeader_ok_inv hp
  rcases hcase with ⟨-, -, hpt⟩ | ⟨-, -, -, -, hpt⟩ | ⟨-, hneg, t, hfind, hpt, -⟩
  · rw [hpt]; decide
  · rw [hpt]; decide
  · rw [hpt]
    intro hq
    rw [List.take_take] at hq
    have hlen3 : ((b.drop (baseHdrLen b)).take (3 ⊓ t)).length = 3 := by rw [hq]; rfl
    have htl := findIdx?_some_lt hfind
    simp only [List.length_take, List.length_drop] at hlen3 htl
    have h3t : 3 ⊓ t = 3 := by omega
    rw [h3t] at hq
    exact hneg ⟨by omega, hq⟩

/-- A version-1 IPv4 buffer whose bytes after the address block read
`"v=0x"` followed by a NUL — a well-formed explicit type field that is
nevertheless swallowed by the implicit-SDP check. -/
def vec9 : List Nat := [0x20, 0, 0, 0, 32, 127, 0, 0, 118, 61, 48, 120, 0]

/-- What `vec9` decodes to: implicit `application/sdp`, length 8, the
explicit type field `"v=0x\0"` left unconsumed. -/
def hdr9 : SapHeader :=
  { version := 1, addressType := AddrTypeV4, reserved := false, typ := false,
    compressed := false, encrypted := false, authLen := 0, idHash := 0,
    authData := none, origSrc := [32, 127, 0, 0],
    payloadType := SDPPayloadType, hlen := 8 }

/-- Witness for `c9_implicit_shadows_explicit`: `vec9` carries the explicit
NUL-terminated type string `"v=0x"`, yet decodes to the implicit
`application/sdp` with zero bytes consumed (header length 8). -/
theorem c9_implicit_shadows_explicit_witness :
    ParseHeader vec9 = .ok hdr9 ∧ hdr9.payloadType = SDPPayloadType ∧
    hdr9.hlen = 8 ∧ hdr9.payloadType.take 3 ≠ vEq0 :=
  ⟨rfl, by decide, by decide, c9_implicit_shadows_explicit vec9 hdr9 rfl⟩

/-! ## C2: truncation -/

/-- C2 (amended): truncating a successfully-decoded buffer strictly before
its decoded header length always yields a decode error — never a success
(and, the model being total, never an out-of-bounds access): the too-short
error (`"invalid header length"`) when the cut falls before the
payload-type field, and `"malformed payload type"` when it falls inside
the explicit payload-type field. -/
theorem c2_truncation (b : List Nat) (h : SapHeader) (k : Nat)
    (hp : ParseHeader b = .ok h) (hk : k < h.hlen) :
    ParseHeader (b.take k) =
      .error (if k < baseHdrLen b then DecodeErr.invalidLength
              else DecodeErr.malformedPayloadType) := by
  obtain ⟨hb4, hver, hver1, hauthLen, haddr, hauth, hhlen, hcase⟩ := ParseHeader_ok_inv hp
  have hkb : k < b.length := by omega
  have hlenk : (b.take k).length = k := by
    rw [List.length_take]; omega
  have hA4 : 4 ≤ addrLenB b ∧ addrLenB b ≤ 16 := by
    unfold addrLenB; split <;> omega
  have hbase : baseHdrLen b = 4 + addrLenB b + 4 * b.getD 1 0 := rfl
  by_cases hk4 : k < 4
  · rw [if_pos (by omega)]
    simp only [ParseHeader]
    rw [if_pos (by omega)]
  · -- at least the fixed 4 bytes survive
    have g0 : (b.take k).getD 0 0 = b.getD 0 0 := getD_take_of_lt (by omega) 0
    have g1 : (b.take k).getD 1 0 = b.getD 1 0 := getD_take_of_lt (by omega) 0
    simp only [ParseHeader, addrLenB, baseHdrLen] at *
    rw [hlenk, g0, g1]
    rw [if_neg (by omega)]
    rw [if_neg (by omega)]
    set A := if ((Nat.land (b.getD 0 0) 0x10) != 0) = AddrTypeV4 then 4 else 16 with hA
    by_cases hk1 : k < 4 + A
    · rw [if_pos (by omega), if_pos (by omega)]
    · rw [if_neg (by omega)]
      by_cases hal : b.getD 1 0 > 0
      · rw [if_pos hal]
        obtain ⟨hL0len, ad, had⟩ := hauth hal
        by_cases hk2 : k < 4 + A + 4 * b.getD 1 0
        · rw [if_pos (by omega), if_pos (by omega)]
        · rw [if_neg (by omega)]
          have hblock : ((b.take k).drop (4 + A)).take (4 * b.getD 1 0)
              = (b.drop (4 + A)).take (4 * b.getD 1 0) := by
            rw [List.drop_take, List.take_take]
            congr 1
            omega
          rw [hblock, had]
          dsimp only
          rcases hcase with ⟨h0, hh, -⟩ | ⟨-, -, -, hh, -⟩ | ⟨hne0, hneg, t, hfind, -, hh⟩
          · omega
          · omega
          · rw [if_pos (by rw [hver] at hne0; exact hne0)]
            have hmagneg : ¬(4 + A + 4 * b.getD 1 0 + 3 ≤ k ∧
                ((b.take k).drop (4 + A + 4 * b.getD 1 0)).take 3 = vEq0) := by
              rintro ⟨hc1, hc2⟩
              rw [List.drop_take, List.take_take] at hc2
              rw [show 3 ⊓ (k - (4 + A + 4 * b.getD 1 0)) = 3 by omega] at hc2
              exact hneg ⟨by omega, hc2⟩
            rw [if_neg hmagneg]
            have hnone : ((b.take k).drop (4 + A + 4 * b.getD 1 0)).findIdx?
                (fun x => x == 0) = none := by
              rw [List.drop_take]
              exact findIdx?_take_of_le hfind (by omega)
            rw [hnone]
            simp only [if_neg (show ¬k < 4 + A + 4 * b.getD 1 0 from by omega)]
      · rw [if_neg hal]
        dsimp only
        have hal0 : b.getD 1 0 = 0 := by omega
        rcases hcase with ⟨h0, hh, -⟩ | ⟨-, -, -, hh, -⟩ | ⟨hne0, hneg, t, hfind, -, hh⟩
        · omega
        · omega
        · rw [if_pos (by rw [hver] at hne0; exact hne0)]
          rw [hal0] at hneg hfind hh
          simp only [Nat.mul_zero, Nat.add_zero] at hneg hfind hh
          have hmagneg : ¬(4 + A + 3 ≤ k ∧ ((b.take k).drop (4 + A)).take 3 = vEq0) := by
            rintro ⟨hc1, hc2⟩
            rw [List.drop_take, List.take_take] at hc2
            rw [show 3 ⊓ (k - (4 + A)) = 3 by omega] at hc2
            exact hneg ⟨by omega, hc2⟩
          rw [if_neg hmagneg]
          have hnone : ((b.take k).drop (4 + A)).findIdx? (fun x => x == 0) = none := by
            rw [List.drop_take]
            exact findIdx?_take_of_le hfind (by omega)
          rw [hnone]
          simp only [if_neg (show ¬k < 4 + A + 4 * b.getD 1 0 from by omega)]

/-- Test packet 2 of packet_test.go: version-1 IPv4 with the explicit
payload type `"application/sdp"`, 24 bytes. -/
def vec2 : List Nat :=
  [0x20, 0, 0xf8, 0x30, 0x20, 0x7f, 0, 0,
   97, 112, 112, 108, 105, 99, 97, 116, 105, 111, 110, 47, 115, 100, 112, 0]

/-- The header `vec2` decodes to (`Len = 24`). -/
def hdr2 : SapHeader :=
  { version := 1, addressType := AddrTypeV4, reserved := false, typ := false,
    compressed := false, encrypted := false, authLen := 0, idHash := 0xf830,
    authData := none, origSrc := [0x20, 0x7f, 0, 0],
    payloadType := SDPPayloadType, hlen := 24 }

/-- C2 (counterexample): `vec2` decodes with header length 24, but its
23-byte strict prefix fails with `"malformed payload type"`, not with the
too-short error — the claim that every strict prefix yields a too-short
error is false. -/
theorem c2_counterexample :
    ParseHeader vec2 = .ok hdr2 ∧ 23 < hdr2.hlen ∧
    ParseHeader (vec2.take 23) = .error DecodeErr.malformedPayloadType ∧
    DecodeErr.malformedPayloadType ≠ DecodeErr.invalidLength :=
  ⟨rfl, by decide, rfl, by decide⟩

/-- Witness for `c2_truncation` at `vec2` cut at byte 23. -/
theorem c2_truncation_witness :
    ParseHeader vec2 = .ok hdr2 ∧ 23 < hdr2.hlen ∧
    ParseHeader (vec2.take 23) =
      .error (if 23 < baseHdrLen vec2 then DecodeErr.invalidLength
              else DecodeErr.malformedPayloadType) :=
  ⟨rfl, by decide, c2_truncation vec2 hdr2 23 rfl (by decide)⟩

/-! ## C1: encode/decode roundtrip -/

/-- A structurally consistent auth sub-header, as `WriteBinary` requires to
invert cleanly: supported version, 4-bit method, data short enough not to
wrap the 8-bit length, and a padding state already in `reflowPadding`'s
fixed-point form. -/
def WFAuth (a : AuthData) : Prop :=
  a.version = 1 ∧ a.authMethod < 16 ∧ a.data.length ≤ 251 ∧
  (a.padding = true → 1 ≤ a.paddingLen ∧ a.paddingLen ≤ 3 ∧
    (1 + a.data.length + a.paddingLen) % 4 = 0) ∧
  (a.padding = false → a.paddingLen = 0 ∧ (1 + a.data.length) % 4 = 0)

instance (a : AuthData) : Decidable (WFAuth a) := by
  unfold WFAuth; infer_instance

/-- The auth-data obligation of a well-formed packet: a consistent sub-header
when present, a zero `AuthLen` when absent (`WriteBinary` would dereference
a nil pointer otherwise). -/
def WFAuthOpt : Option AuthData → Nat → Prop
  | some a, _ => WFAuth a
  | none, al => al = 0

instance (o : Option AuthData) (al : Nat) : Decidable (WFAuthOpt o al) := by
  cases o <;> (unfold WFAuthOpt; infer_instance)

/-- Well-formedness of a packet for the encode/decode roundtrip: a legal
version, a 16-bit hash, an origin address in canonical form (4 bytes, or
16 bytes that are not an IPv4-mapped address), a consistent auth block, a
payload type without NUL bytes that does not begin with the SDP magic
`"v=0"`, and — for version 0, where no type field is written — the payload
type already pinned to `application/sdp`. -/
def WellFormedPacket (p : SapPacket) : Prop :=
  (p.header.version = 0 ∨ p.header.version = 1) ∧
  p.header.idHash < 65536 ∧
  (p.header.origSrc.length = 4 ∨
    (p.header.origSrc.length = 16 ∧ p.header.origSrc.take 12 ≠ v4InV6Prefix)) ∧
  WFAuthOpt p.header.authData p.header.authLen ∧
  (∀ x ∈ p.header.payloadType, x ≠ 0) ∧
  p.header.payloadType.take 3 ≠ vEq0 ∧
  (p.header.version = 0 → p.header.payloadType = SDPPayloadType)

instance (p : SapPacket) : Decidable (WellFormedPacket p) := by
  unfold WellFormedPacket; infer_instance

lemma lor_byte (lo hi : Nat) (hlo : lo < 256) : Nat.lor lo (hi <<< 8) = 256 * hi + lo := by
  show lo ||| hi <<< 8 = 256 * hi + lo
  rw [Nat.lor_comm, Nat.shiftLeft_eq]
  have h := Nat.mul_add_lt_is_or (i := 8) (show lo < 2 ^ 8 by norm_num [hlo]) hi
  rw [show hi * 2 ^ 8 = 2 ^ 8 * hi from Nat.mul_comm _ _, ← h]

lemma headerByte0_fields (v : Nat) (hv : v ≤ 1) (a r t e c : Bool) :
    (Nat.land ((v <<< 5 + booluint8 a <<< 4 + booluint8 r <<< 3 + booluint8 t <<< 2
        + booluint8 e <<< 1 + booluint8 c) % 256) 0xe0) >>> 5 = v ∧
    ((Nat.land ((v <<< 5 + booluint8 a <<< 4 + booluint8 r <<< 3 + booluint8 t <<< 2
        + booluint8 e <<< 1 + booluint8 c) % 256) 0x10) != 0) = a ∧
    ((Nat.land ((v <<< 5 + booluint8 a <<< 4 + booluint8 r <<< 3 + booluint8 t <<< 2
        + booluint8 e <<< 1 + booluint8 c) % 256) 0x08) != 0) = r ∧
    ((Nat.land ((v <<< 5 + booluint8 a <<< 4 + booluint8 r <<< 3 + booluint8 t <<< 2
        + booluint8 e <<< 1 + booluint8 c) % 256) 0x04) != 0) = t ∧
    ((Nat.land ((v <<< 5 + booluint8 a <<< 4 + booluint8 r <<< 3 + booluint8 t <<< 2
        + booluint8 e <<< 1 + booluint8 c) % 256) 0x02) != 0) = e ∧
    ((Nat.land ((v <<< 5 + booluint8 a <<< 4 + booluint8 r <<< 3 + booluint8 t <<< 2
        + booluint8 e <<< 1 + booluint8 c) % 256) 0x01) != 0) = c := by
  interval_cases v <;> cases a <;> cases r <;> cases t <;> cases e <;> cases c <;> decide

lemma authByte0_fields (m : Nat) (hm : m < 16) :
    (Nat.land (48 + m) 0xe0) >>> 5 = 1 ∧ ((Nat.land (48 + m) 0x10) != 0) = true ∧
    Nat.land (48 + m) 0x0f = m ∧
    (Nat.land (32 + m) 0xe0) >>> 5 = 1 ∧ ((Nat.land (32 + m) 0x10) != 0) = false ∧
    Nat.land (32 + m) 0x0f = m := by
  interval_cases m <;> decide

/-- On a consistent auth sub-header `reflowPadding` is the identity on the
padding state and returns the exact word count. -/
lemma reflowPadding_of_wf (a : AuthData) (wfa : WFAuth a) :
    reflowPadding a = ((1 + a.data.length + a.paddingLen) / 4, a) := by
  obtain ⟨-, -, hL, hpadT, hpadF⟩ := wfa
  by_cases hp : a.padding = true
  · obtain ⟨h1, h2, h3⟩ := hpadT hp
    simp only [reflowPadding, hp, if_true]
    have hsum : ((a.data.length + 1) % 256 + a.paddingLen % 256) % 256
        = 1 + a.data.length + a.paddingLen := by omega
    rw [hsum, if_neg (by omega)]
  · have hb : a.padding = false := by revert hp; cases a.padding <;> simp
    obtain ⟨h0, h4⟩ := hpadF hb
    simp only [reflowPadding, hb, Bool.false_eq_true, if_false]
    rw [show (a.data.length + 1) % 256 = 1 + a.data.length by omega, if_neg (by omega)]
    rw [h0]
    norm_num

lemma set_concat_length (l : List Nat) (x y : Nat) :
    (l ++ [x]).set l.length y = l ++ [y] := by
  rw [List.set_append_right _ _ (Nat.le_refl _)]
  simp


lemma getD_concat (l : List Nat) (x d : Nat) : (l ++ [x]).getD l.length d = x := by
  simp [List.getD, List.getElem?_concat_length]

lemma parseAuthData_eval_pad (b : List Nat)
    (hv : (Nat.land (b.getD 0 0) 0xe0) >>> 5 = 1)
    (hpad : ((Nat.land (b.getD 0 0) 0x10) != 0) = true)
    (hguard : ¬ b.getD (b.length - 1) 0 > b.length - 1) :
    parseAuthData b = .ok { version := 1, padding := true, authMethod := Nat.land (b.getD 0 0) 0x0f, paddingLen := b.getD (b.length - 1) 0, data := (b.take (b.length - b.getD (b.length - 1) 0)).drop 1 } := by
  simp only [parseAuthData, hv, hpad, ne_eq, not_true_eq_false, if_false, if_true, true_and]
  rw [if_neg hguard]

lemma parseAuthData_eval_nopad (b : List Nat)
    (hv : (Nat.land (b.getD 0 0) 0xe0) >>> 5 = 1)
    (hpad : ((Nat.land (b.getD 0 0) 0x10) != 0) = false) :
    parseAuthData b = .ok { version := 1, padding := false, authMethod := Nat.land (b.getD 0 0) 0x0f, paddingLen := 0, data := (b.take (b.length - 0)).drop 1 } := by
  simp only [parseAuthData, hv, hpad, ne_eq, not_true_eq_false, if_false, if_true,
    Bool.false_eq_true, false_and]

/-- `writeBinary` then `parseAuthData` is the identity on consistent auth
sub-headers, and the block has the exact reflowed byte length. -/
lemma parseAuthData_authWriteBinary (a : AuthData) (wfa : WFAuth a) :
    parseAuthData (authWriteBinary a) = .ok a ∧
    (authWriteBinary a).length = 1 + a.data.length + a.paddingLen := by
  obtain ⟨av, ap, am, apl, ad⟩ := a
  obtain ⟨hv1, hm16, hL, hpadT, hpadF⟩ := wfa
  dsimp only at hv1 hm16 hL hpadT hpadF
  subst hv1
  obtain ⟨hb48v, hb48p, hb48m, hb32v, hb32p, hb32m⟩ := authByte0_fields am hm16
  have hml : Nat.land am 0xff = am :=
    Nat.and_pow_two_sub_one_of_lt_two_pow (show am < 2 ^ 8 by omega)
  cases ap with
  | true =>
    obtain ⟨h1, h2, h3⟩ := hpadT rfl
    have hshape : authWriteBinary ⟨1, true, am, apl, ad⟩
        = ((48 + am) :: ad ++ List.replicate (apl - 1) 0) ++ [apl] := by
      rw [authWriteBinary]
      dsimp only
      rw [if_pos rfl]
      rw [hml, show (1 <<< 5 + booluint8 true <<< 4 + am) % 256 = 48 + am from by
        simp [booluint8]; omega]
      rw [show apl = (apl - 1) + 1 from by omega, List.replicate_succ']
      rw [show (apl - 1) + 1 = apl from by omega]
      rw [show ((48 + am) :: ad) ++ (List.replicate (apl - 1) 0 ++ [0])
          = (((48 + am) :: ad) ++ List.replicate (apl - 1) 0) ++ [0] from by
        simp [List.append_assoc]]
      rw [show ad.length + apl = (((48 + am) :: ad) ++ List.replicate (apl - 1) 0).length
          from by simp [List.length_replicate]; omega]
      rw [set_concat_length, show apl % 256 = apl from by omega]
    have hblen : (authWriteBinary ⟨1, true, am, apl, ad⟩).length
        = 1 + ad.length + apl := by
      rw [hshape]; simp [List.length_replicate]; omega
    refine ⟨?_, hblen⟩
    rw [hshape]
    have hlenfull : (((48 + am) :: ad ++ List.replicate (apl - 1) 0) ++ [apl]).length
        = 1 + ad.length + apl := by
      simp [List.length_replicate]; omega
    have hg0 : (((48 + am) :: ad ++ List.replicate (apl - 1) 0) ++ [apl]).getD 0 0
        = 48 + am := rfl
    have hlast : (((48 + am) :: ad ++ List.replicate (apl - 1) 0) ++ [apl]).getD
        ((((48 + am) :: ad ++ List.replicate (apl - 1) 0) ++ [apl]).length - 1) 0 = apl := by
      rw [hlenfull, show 1 + ad.length + apl - 1
          = ((48 + am) :: ad ++ List.replicate (apl - 1) 0).length from by
        simp [List.length_replicate]; omega]
      exact getD_concat _ _ _
    rw [parseAuthData_eval_pad _ (by rw [hg0]; exact hb48v) (by rw [hg0]; exact hb48p)
      (by rw [hlast, hlenfull]; omega)]
    rw [hlast, hlenfull, hg0, hb48m]
    have hdata : ((((48 + am) :: ad ++ List.replicate (apl - 1) 0) ++ [apl]).take
        (1 + ad.length + apl - apl)).drop 1 = ad := by
      rw [show 1 + ad.length + apl - apl = ad.length + 1 from by omega]
      rw [show ((48 + am) :: ad ++ List.replicate (apl - 1) 0) ++ [apl]
          = (48 + am) :: (ad ++ (List.replicate (apl - 1) 0 ++ [apl])) from by
        simp [List.append_assoc]]
      rw [List.take_succ_cons, List.take_left' rfl, List.drop_one, List.tail_cons]
    rw [hdata]
  | false =>
    obtain ⟨h0, h4⟩ := hpadF rfl
    subst h0
    have hshape : authWriteBinary ⟨1, false, am, 0, ad⟩ = (32 + am) :: ad := by
      rw [authWriteBinary]
      dsimp only
      rw [if_neg (by simp)]
      rw [hml, show (1 <<< 5 + booluint8 false <<< 4 + am) % 256 = 32 + am from by
        simp [booluint8]; omega]
    have hblen : (authWriteBinary ⟨1, false, am, 0, ad⟩).length = 1 + ad.length + 0 := by
      rw [hshape]; simp; omega
    refine ⟨?_, hblen⟩
    rw [hshape]
    have hg0 : ((32 + am) :: ad).getD 0 0 = 32 + am := rfl
    rw [parseAuthData_eval_nopad _ (by rw [hg0]; exact hb32v) (by rw [hg0]; exact hb32p)]
    simp only [hg0, hb32m, Nat.sub_zero, List.take_length, List.drop_one, List.tail_cons]

lemma take3_type_field_ne (pt pay : List Nat) (h3 : pt.take 3 ≠ vEq0) :
    (pt ++ 0 :: pay).take 3 ≠ vEq0 := by
  match pt with
  | [] => simp [vEq0]
  | [x] => simp [vEq0, List.take]
  | [x, y] => simp [vEq0, List.take]
  | x :: y :: z :: tl => simpa [List.take] using h3

/-- Evaluation of `ParseHeader` on a buffer laid out exactly as
`writeBinary` produces it: flag byte, auth length, big-endian hash, address
block, auth block, optional NUL-terminated type field, payload. -/
lemma ParseHeader_segments
    (v : Nat) (b4 b3 b2 b1 b0 : Bool) (alw idh : Nat) (pt : List Nat)
    (addr auth ptfield pay : List Nat) (adOpt : Option AuthData)
    (hv : v ≤ 1) (halw : alw < 256) (hid : idh < 65536)
    (haddr : addr.length = (if b4 = AddrTypeV4 then 4 else 16))
    (hauthlen : auth.length = 4 * alw)
    (hadp : (0 < alw ∧ ∃ ad, parseAuthData auth = .ok ad ∧ adOpt = some ad) ∨
            (alw = 0 ∧ adOpt = none))
    (hpt : (v = 0 ∧ ptfield = [] ∧ pt = SDPPayloadType) ∨
           (v = 1 ∧ ptfield = pt ++ [0] ∧ (∀ x ∈ pt, x ≠ 0) ∧ pt.take 3 ≠ vEq0)) :
    ParseHeader (((v <<< 5 + booluint8 b4 <<< 4 + booluint8 b3 <<< 3 + booluint8 b2 <<< 2 + booluint8 b1 <<< 1 + booluint8 b0) % 256) :: alw :: ((idh / 256) % 256) :: (idh % 256) :: (addr ++ auth ++ ptfield ++ pay)) =
      .ok { version := v, addressType := b4, reserved := b3, typ := b2, compressed := b1, encrypted := b0, authLen := alw, idHash := idh, authData := adOpt, origSrc := addr, payloadType := pt, hlen := 4 + addr.length + 4 * alw + ptfield.length } ∧
    (((v <<< 5 + booluint8 b4 <<< 4 + booluint8 b3 <<< 3 + booluint8 b2 <<< 2 + booluint8 b1 <<< 1 + booluint8 b0) % 256) :: alw :: ((idh / 256) % 256) :: (idh % 256) :: (addr ++ auth ++ ptfield ++ pay)).drop (4 + addr.length + 4 * alw + ptfield.length) = pay := by
  obtain ⟨hf5, hf4, hf3, hf2, hf1, hf0⟩ := headerByte0_fields v hv b4 b3 b2 b1 b0
  have hg0 : (((v <<< 5 + booluint8 b4 <<< 4 + booluint8 b3 <<< 3 + booluint8 b2 <<< 2 + booluint8 b1 <<< 1 + booluint8 b0) % 256) :: alw :: ((idh / 256) % 256) :: (idh % 256) :: (addr ++ auth ++ ptfield ++ pay)).getD 0 0 = (v <<< 5 + booluint8 b4 <<< 4 + booluint8 b3 <<< 3 + booluint8 b2 <<< 2 + booluint8 b1 <<< 1 + booluint8 b0) % 256 := rfl
  have hg1 : (((v <<< 5 + booluint8 b4 <<< 4 + booluint8 b3 <<< 3 + booluint8 b2 <<< 2 + booluint8 b1 <<< 1 + booluint8 b0) % 256) :: alw :: ((idh / 256) % 256) :: (idh % 256) :: (addr ++ auth ++ ptfield ++ pay)).getD 1 0 = alw := rfl
  have hg2 : (((v <<< 5 + booluint8 b4 <<< 4 + booluint8 b3 <<< 3 + booluint8 b2 <<< 2 + booluint8 b1 <<< 1 + booluint8 b0) % 256) :: alw :: ((idh / 256) % 256) :: (idh % 256) :: (addr ++ auth ++ ptfield ++ pay)).getD 2 0 = (idh / 256) % 256 := rfl
  have hg3 : (((v <<< 5 + booluint8 b4 <<< 4 + booluint8 b3 <<< 3 + booluint8 b2 <<< 2 + booluint8 b1 <<< 1 + booluint8 b0) % 256) :: alw :: ((idh / 256) % 256) :: (idh % 256) :: (addr ++ auth ++ ptfield ++ pay)).getD 3 0 = idh % 256 := rfl
  have hd4 : (((v <<< 5 + booluint8 b4 <<< 4 + booluint8 b3 <<< 3 + booluint8 b2 <<< 2 + booluint8 b1 <<< 1 + booluint8 b0) % 256) :: alw :: ((idh / 256) % 256) :: (idh % 256) :: (addr ++ auth ++ ptfield ++ pay)).drop 4 = addr ++ auth ++ ptfield ++ pay := rfl
  have hlenL : (((v <<< 5 + booluint8 b4 <<< 4 + booluint8 b3 <<< 3 + booluint8 b2 <<< 2 + booluint8 b1 <<< 1 + booluint8 b0) % 256) :: alw :: ((idh / 256) % 256) :: (idh % 256) :: (addr ++ auth ++ ptfield ++ pay)).length = 4 + addr.length + auth.length + ptfield.length + pay.length := by
    simp [List.length_append]
    omega
  generalize hLdef : (((v <<< 5 + booluint8 b4 <<< 4 + booluint8 b3 <<< 3 + booluint8 b2 <<< 2 + booluint8 b1 <<< 1 + booluint8 b0) % 256) :: alw :: ((idh / 256) % 256) :: (idh % 256) :: (addr ++ auth ++ ptfield ++ pay) : List Nat) = L at hg0 hg1 hg2 hg3 hd4 hlenL ⊢
  have hdA : L.drop (4 + addr.length) = auth ++ (ptfield ++ pay) := by
    rw [← List.drop_drop, hd4, List.append_assoc, List.append_assoc]
    exact List.drop_left ..
  simp only [ParseHeader, hg0, hg1, hg2, hg3, hf5, hf4, hf3, hf2, hf1, hf0]
  rw [if_neg (by rw [hlenL]; omega)]
  rw [if_neg (by omega)]
  rw [← haddr]
  rw [if_neg (by rw [hlenL]; omega)]
  rw [hd4]
  rw [show (addr ++ auth ++ ptfield ++ pay).take addr.length = addr from by
    rw [List.append_assoc, List.append_assoc]; exact List.take_left ..]
  have hidh2 : Nat.lor (idh % 256) ((idh / 256 % 256) <<< 8) = idh := by
    rw [show idh / 256 % 256 = idh / 256 from by omega, lor_byte _ _ (by omega)]
    omega
  rw [hidh2]
  have hdT : L.drop (4 + addr.length + 4 * alw) = ptfield ++ pay := by
    rw [show 4 + addr.length + 4 * alw = (4 + addr.length) + auth.length from by
      rw [hauthlen]]
    rw [← List.drop_drop, hdA, List.drop_left]
  have hdP : L.drop (4 + addr.length + 4 * alw + ptfield.length) = pay := by
    rw [show 4 + addr.length + 4 * alw + ptfield.length
        = (4 + addr.length + 4 * alw) + ptfield.length from rfl]
    rw [← List.drop_drop, hdT, List.drop_left]
  refine ⟨?_, hdP⟩
  rcases hadp with ⟨hal, ad, had, hadeq⟩ | ⟨hal0, hnone⟩
  · subst hadeq
    rw [if_pos hal]
    rw [if_neg (by rw [hlenL, hauthlen]; omega)]
    rw [hdA]
    rw [show (auth ++ (ptfield ++ pay)).take (4 * alw) = auth from by
      rw [← hauthlen]; exact List.take_left ..]
    rw [had]
    dsimp only
    rcases hpt with ⟨hv0, hptf, hptSDP⟩ | ⟨hv1, hptf, hptnz, hpt3⟩
    · subst hptf hptSDP
      rw [if_neg (by simp [hv0])]
      simp
    · subst hptf
      rw [if_pos (by omega)]
      rw [hdT]
      rw [show (pt ++ [0]) ++ pay = pt ++ (0 :: pay) from by simp]
      rw [if_neg (fun hc => take3_type_field_ne pt pay hpt3 hc.2)]
      rw [findIdx?_no_zero_append hptnz]
      dsimp only
      rw [List.take_left]
      simp [List.length_append]
      omega
  · subst hal0 hnone
    rw [if_neg (by omega)]
    dsimp only
    rcases hpt with ⟨hv0, hptf, hptSDP⟩ | ⟨hv1, hptf, hptnz, hpt3⟩
    · subst hptf hptSDP
      rw [if_neg (by simp [hv0])]
      simp
    · subst hptf
      rw [if_pos (by omega)]
      have hdT0 : L.drop (4 + addr.length) = (pt ++ [0]) ++ pay := by
        have := hdT
        simp only [Nat.mul_zero, Nat.add_zero] at this
        exact this
      rw [hdT0]
      rw [show (pt ++ [0]) ++ pay = pt ++ (0 :: pay) from by simp]
      rw [if_neg (fun hc => take3_type_field_ne pt pay hpt3 hc.2)]
      rw [findIdx?_no_zero_append hptnz]
      dsimp only
      rw [List.take_left]
      simp [List.length_append]
      omega

/-- C1 (amended): encoding a well-formed packet with `WriteBinary` and
decoding with `ParseHeader` succeeds and returns the recomputed header
(`AuthLen`, `AddressType`, padding state and total length recomputed, as
`recomputeLen` does before every write) with the `Compressed` and
`Encrypted` flags exchanged — `WriteBinary` packs Encrypted at bit 1 and
Compressed at bit 0 while `ParseHeader` reads Compressed from bit 1 and
Encrypted from bit 0 — together with the payload intact after the header. -/
theorem c1_roundtrip (p : SapPacket) (wf : WellFormedPacket p) :
    ParseHeader (writeBinary p) =
      .ok { recomputeLen p.header with compressed := p.header.encrypted, encrypted := p.header.compressed } ∧
    (writeBinary p).drop ((recomputeLen p.header).hlen) = p.payload := by
  obtain ⟨⟨v, a0, r, t, cmp, enc, al, idh, ado, src, pt, hl⟩, pay⟩ := p
  obtain ⟨hv01, hid, horig, hado, hptnz, hpt3, hv0pt⟩ := wf
  dsimp only at hv01 hid horig hado hptnz hpt3 hv0pt
  have hptD : (v = 0 ∧ (if v = 1 then pt ++ [0] else []) = [] ∧ pt = SDPPayloadType) ∨
      (v = 1 ∧ (if v = 1 then pt ++ [0] else []) = pt ++ [0] ∧ (∀ x ∈ pt, x ≠ 0) ∧
        pt.take 3 ≠ vEq0) := by
    rcases hv01 with h0 | h1
    · exact Or.inl ⟨h0, by simp [h0], hv0pt h0⟩
    · exact Or.inr ⟨h1, by rw [if_pos h1], hptnz, hpt3⟩
  have hvle : v ≤ 1 := by rcases hv01 with h | h <;> omega
  rcases ado with _ | a
  · -- no auth data
    have hal0 : al = 0 := hado
    subst hal0
    rcases horig with hlen4 | ⟨hlen16, hnotmap⟩
    · have hip : ipTo4 src = some src := by unfold ipTo4; rw [if_pos hlen4]
      simp only [writeBinary, recomputeLen, hip]
      simp only [Option.isNone_some, Nat.zero_mod]
      rw [if_pos (show (false : Bool) = AddrTypeV4 from rfl)]
      rw [if_pos (show (false : Bool) = AddrTypeV4 from rfl)]
      rw [ite_self]
      simp only [Option.getD_some]
      have hlen_eq : (if v ≠ 0 then 4 + 4 * 0 + 4 + pt.length + 1 else 4 + 4 * 0 + 4)
          = 4 + src.length + 4 * 0 + (if v = 1 then pt ++ [0] else []).length := by
        rcases hv01 with h | h
        · simp [h, hlen4]
        · simp [h, hlen4, List.length_append]
          omega
      rw [hlen_eq]
      exact ParseHeader_segments v false r t enc cmp 0 idh pt src []
        (if v = 1 then pt ++ [0] else []) pay none hvle (by omega) hid
        (by rw [hlen4]; rfl) rfl (Or.inr ⟨rfl, rfl⟩) hptD
    · have hip : ipTo4 src = none := by
        unfold ipTo4
        rw [if_neg (by omega), if_neg (by rintro ⟨-, h2⟩; exact hnotmap h2)]
      have htake : src.take 16 = src := by
        rw [show (16 : Nat) = src.length from hlen16.symm, List.take_length]
      simp only [writeBinary, recomputeLen, hip]
      simp only [Option.isNone_none, Nat.zero_mod, htake]
      rw [if_neg (show ¬((true : Bool) = AddrTypeV4) from by simp [AddrTypeV4])]
      rw [if_neg (show ¬((true : Bool) = AddrTypeV4) from by simp [AddrTypeV4])]
      rw [ite_self]
      have hlen_eq : (if v ≠ 0 then 4 + 4 * 0 + 16 + pt.length + 1 else 4 + 4 * 0 + 16)
          = 4 + src.length + 4 * 0 + (if v = 1 then pt ++ [0] else []).length := by
        rcases hv01 with h | h
        · simp [h, hlen16]
        · simp [h, hlen16, List.length_append]
          omega
      rw [hlen_eq]
      exact ParseHeader_segments v true r t enc cmp 0 idh pt src []
        (if v = 1 then pt ++ [0] else []) pay none hvle (by omega) hid
        (by rw [hlen16]; rfl) rfl (Or.inr ⟨rfl, rfl⟩) hptD
  · -- auth data present
    have wfa : WFAuth a := hado
    obtain ⟨hav, ham, haL, hpT, hpF⟩ := wfa
    have hsum4 : (1 + a.data.length + a.paddingLen) % 4 = 0 ∧
        4 ≤ 1 + a.data.length + a.paddingLen ∧ 1 + a.data.length + a.paddingLen ≤ 255 := by
      by_cases hp : a.padding = true
      · obtain ⟨x1, x2, x3⟩ := hpT hp
        omega
      · obtain ⟨x1, x2⟩ := hpF (by revert hp; cases a.padding <;> simp)
        omega
    have hreflow := reflowPadding_of_wf a ⟨hav, ham, haL, hpT, hpF⟩
    obtain ⟨hparse, hblen⟩ := parseAuthData_authWriteBinary a ⟨hav, ham, haL, hpT, hpF⟩
    have hauthlen : (authWriteBinary a).length = 4 * ((1 + a.data.length + a.paddingLen) / 4) := by
      rw [hblen]; omega
    have hWpos : 0 < (1 + a.data.length + a.paddingLen) / 4 := by omega
    have hW63 : (1 + a.data.length + a.paddingLen) / 4 ≤ 63 := by omega
    have hWmod : (1 + a.data.length + a.paddingLen) / 4 % 256
        = (1 + a.data.length + a.paddingLen) / 4 := by omega
    rcases horig with hlen4 | ⟨hlen16, hnotmap⟩
    · have hip : ipTo4 src = some src := by unfold ipTo4; rw [if_pos hlen4]
      simp only [writeBinary, recomputeLen, hreflow, hip]
      simp only [Option.isNone_some, hWmod]
      rw [if_pos (show (false : Bool) = AddrTypeV4 from rfl)]
      rw [if_pos (show (false : Bool) = AddrTypeV4 from rfl)]
      rw [if_pos (show (1 + a.data.length + a.paddingLen) / 4 ≠ 0 from by omega)]
      simp only [Option.getD_some]
      have hlen_eq : (if v ≠ 0 then 4 + 4 * ((1 + a.data.length + a.paddingLen) / 4) + 4 + pt.length + 1 else 4 + 4 * ((1 + a.data.length + a.paddingLen) / 4) + 4)
          = 4 + src.length + 4 * ((1 + a.data.length + a.paddingLen) / 4) + (if v = 1 then pt ++ [0] else []).length := by
        rcases hv01 with h | h
        · simp [h, hlen4]
          omega
        · simp [h, hlen4, List.length_append]
          omega
      rw [hlen_eq]
      exact ParseHeader_segments v false r t enc cmp ((1 + a.data.length + a.paddingLen) / 4)
        idh pt src (authWriteBinary a) (if v = 1 then pt ++ [0] else []) pay (some a)
        hvle (by omega) hid (by rw [hlen4]; rfl) hauthlen
        (Or.inl ⟨hWpos, a, hparse, rfl⟩) hptD
    · have hip : ipTo4 src = none := by
        unfold ipTo4
        rw [if_neg (by omega), if_neg (by rintro ⟨-, h2⟩; exact hnotmap h2)]
      have htake : src.take 16 = src := by
        rw [show (16 : Nat) = src.length from hlen16.symm, List.take_length]
      simp only [writeBinary, recomputeLen, hreflow, hip]
      simp only [Option.isNone_none, hWmod, htake]
      rw [if_neg (show ¬((true : Bool) = AddrTypeV4) from by simp [AddrTypeV4])]
      rw [if_neg (show ¬((true : Bool) = AddrTypeV4) from by simp [AddrTypeV4])]
      rw [if_pos (show (1 + a.data.length + a.paddingLen) / 4 ≠ 0 from by omega)]
      have hlen_eq : (if v ≠ 0 then 4 + 4 * ((1 + a.data.length + a.paddingLen) / 4) + 16 + pt.length + 1 else 4 + 4 * ((1 + a.data.length + a.paddingLen) / 4) + 16)
          = 4 + src.length + 4 * ((1 + a.data.length + a.paddingLen) / 4) + (if v = 1 then pt ++ [0] else []).length := by
        rcases hv01 with h | h
        · simp [h, hlen16]
          omega
        · simp [h, hlen16, List.length_append]
          omega
      rw [hlen_eq]
      exact ParseHeader_segments v true r t enc cmp ((1 + a.data.length + a.paddingLen) / 4)
        idh pt src (authWriteBinary a) (if v = 1 then pt ++ [0] else []) pay (some a)
        hvle (by omega) hid (by rw [hlen16]; rfl) hauthlen
        (Or.inl ⟨hWpos, a, hparse, rfl⟩) hptD

/-- A well-formed packet with an auth sub-header (test 13 of
packet_test.go) and an SDP payload. -/
def pkt1 : SapPacket :=
  { header :=
    { version := 1, addressType := AddrTypeV6, reserved := false, typ := false,
      compressed := false, encrypted := false, authLen := 1, idHash := 0xf830,
      authData := some { version := 1, padding := true, authMethod := 0, paddingLen := 3, data := [] },
      origSrc := [0, 0, 0, 0, 0, 0, 0, 0, 0xc0, 0xf1, 0x31, 0x98, 0x20, 0x7f, 0, 0],
      payloadType := SDPPayloadType, hlen := 40 },
    payload := [118, 61, 48, 13, 10] }

/-- Witness for `c1_roundtrip` at the concrete packet `pkt1`. -/
theorem c1_roundtrip_witness :
    WellFormedPacket pkt1 ∧
    ParseHeader (writeBinary pkt1) =
      .ok { recomputeLen pkt1.header with compressed := pkt1.header.encrypted, encrypted := pkt1.header.compressed } ∧
    (writeBinary pkt1).drop ((recomputeLen pkt1.header).hlen) = pkt1.payload := by
  have h := c1_roundtrip pkt1 (by decide)
  exact ⟨by decide, h.1, h.2⟩

/-- A packet with `Encrypted` set and `Compressed` clear. -/
def pkt0 : SapPacket :=
  { header :=
    { version := 1, addressType := AddrTypeV4, reserved := false, typ := false,
      compressed := false, encrypted := true, authLen := 0, idHash := 0,
      authData := none, origSrc := [32, 127, 0, 0],
      payloadType := SDPPayloadType, hlen := 0 },
    payload := [] }

/-- What `ParseHeader` returns on `writeBinary pkt0`: the `Encrypted` bit
written by the encoder comes back as `Compressed`. -/
def hdr0' : SapHeader :=
  { version := 1, addressType := AddrTypeV4, reserved := false, typ := false,
    compressed := true, encrypted := false, authLen := 0, idHash := 0,
    authData := none, origSrc := [32, 127, 0, 0],
    payloadType := SDPPayloadType, hlen := 24 }

/-- C1 (counterexample): encoding the well-formed packet `pkt0`
(`Encrypted = true`, `Compressed = false`) and decoding yields a header
with `Encrypted = false` and `Compressed = true`: the five flag bits are
not read back from the positions they were written to — `WriteBinary` puts
Encrypted at bit 1 and Compressed at bit 0, `ParseHeader` reads them the
other way around — so the round-trip is not field-equal outside the
recomputed fields. -/
theorem c1_counterexample :
    WellFormedPacket pkt0 ∧
    ParseHeader (writeBinary pkt0) = .ok hdr0' ∧
    pkt0.header.encrypted = true ∧ hdr0'.encrypted = false ∧
    pkt0.header.compressed = false ∧ hdr0'.compressed = true :=
  ⟨by decide, rfl, rfl, rfl, rfl, rfl⟩
